import Mathlib

/-
Verification of the cache-aside translation pipeline of ss-translate
(src/translation-microservice.go), as a shallow embedding: the external
collaborators (redis cache, language parser, translation provider) are
inputs of type `World`, and each run returns its result together with the
list of cache/provider side effects it performed.
-/

/-- Incoming request (Go struct TranslationRequest): text, optional
source_lang, required target_lang, auth_token. -/
structure TranslationRequest where
  text : String
  sourceLang : String
  targetLang : String
  authToken : String
deriving DecidableEq

/-- Response (Go struct TranslationResponse): translated_text, source_lang,
target_lang, cache_hit. -/
structure TranslationResponse where
  translatedText : String
  sourceLang : String
  targetLang : String
  cacheHit : Bool
deriving DecidableEq

/-- Bytes stored in the cache: either bytes that json.Unmarshal decodes into
a TranslationResponse, or bytes on which it fails. -/
inductive CachedValue where
  | wellFormed (r : TranslationResponse)
  | garbage (s : String)
deriving DecidableEq

/-- Outcome of redisClient.Get on a key: a value (err == nil), redis.Nil
(key absent), or any other redis error. -/
inductive CacheGetResult where
  | found (v : CachedValue)
  | nilErr
  | otherErr
deriving DecidableEq

/-- One element of the provider reply (translate.Translation): the translated
text and the source, as Source.String(). -/
structure Translation where
  text : String
  source : String
deriving DecidableEq

/-- Outcome of translateClient.Translate: an error, or a list of
translations. -/
inductive ProviderResult where
  | provErr
  | ok (translations : List Translation)
deriving DecidableEq

/-- Observable cache/provider side effects of one translateText run,
in order. -/
inductive Event where
  | cacheGet (key : String)
  | cacheSet (key : String) (value : TranslationResponse)
  | providerCall (text : String) (source : Option String) (target : String)
deriving DecidableEq

/-- The fmt.Errorf failure branches of translateText. -/
inductive TranslateError where
  | unmarshalError
  | invalidSourceLanguage
  | invalidTargetLanguage
  | providerError
  | noTranslationReturned
deriving DecidableEq

/-- Both language-parse failures belong to the InvalidLanguageTag class of
the error taxonomy. -/
def TranslateError.isInvalidLanguageTag : TranslateError → Bool
  | .invalidSourceLanguage => true
  | .invalidTargetLanguage => true
  | _ => false

/-- Whether an event is a provider Translate call. -/
def Event.isProviderCall : Event → Bool
  | .providerCall _ _ _ => true
  | _ => false

/-- The external collaborators seen by one request: whether redisClient is
non-nil, what Get returns per key, whether language.Parse succeeds on a
string, what the provider returns, and whether the best-effort Set errors. -/
structure World where
  redisNonNil : Bool
  cacheGet : String → CacheGetResult
  parse : String → Bool
  providerTranslate : String → Option String → String → ProviderResult
  setFails : Bool

/-- Cache key construction:
fmt.Sprintf("translate:%s:%s:%s", req.SourceLang, req.TargetLang, req.Text). -/
def deriveCacheKey (sourceLang targetLang text : String) : String :=
  "translate:" ++ sourceLang ++ ":" ++ targetLang ++ ":" ++ text

/-- json.Unmarshal of cached bytes into a TranslationResponse. -/
def unmarshalResponse : CachedValue → Option TranslationResponse
  | .wellFormed r => some r
  | .garbage _ => none

/-- The Source option of the provider call: explicit when req.SourceLang is
non-empty, auto-detect otherwise. -/
def providerSource (req : TranslationRequest) : Option String :=
  if req.sourceLang = "" then none else some req.sourceLang

/-- Response built on the provider path: translations[0].Text, the supplied
source (or the detected one in auto-detect mode), the raw req.TargetLang,
and CacheHit false. -/
def missResponse (req : TranslationRequest) (t : Translation) :
    TranslationResponse :=
  { translatedText := t.text
    sourceLang := if req.sourceLang = "" then t.source else req.sourceLang
    targetLang := req.targetLang
    cacheHit := false }

/-- The part of translateText below the cache check: parse the source tag
(only when non-empty), parse the target tag, call the provider, build the
response, and write it back best-effort when redisClient is non-nil. -/
def translateMiss (w : World) (req : TranslationRequest) (cacheKey : String)
    (ev0 : List Event) : Except TranslateError TranslationResponse × List Event :=
  if req.sourceLang ≠ "" ∧ w.parse req.sourceLang = false then
    (.error .invalidSourceLanguage, ev0)
  else if w.parse req.targetLang = false then
    (.error .invalidTargetLanguage, ev0)
  else
    match w.providerTranslate req.text (providerSource req) req.targetLang with
    | .provErr =>
        (.error .providerError,
         ev0 ++ [Event.providerCall req.text (providerSource req) req.targetLang])
    | .ok [] =>
        (.error .noTranslationReturned,
         ev0 ++ [Event.providerCall req.text (providerSource req) req.targetLang])
    | .ok (t :: _) =>
        if w.redisNonNil then
          (.ok (missResponse req t),
           ev0 ++ [Event.providerCall req.text (providerSource req) req.targetLang,
                   Event.cacheSet cacheKey (missResponse req t)])
        else
          (.ok (missResponse req t),
           ev0 ++ [Event.providerCall req.text (providerSource req) req.targetLang])

/-- translateText: derive the key; when redisClient is non-nil do the cache
Get first — a hit that deserializes is returned with CacheHit forced true, a
hit that fails to deserialize is an error, redis.Nil and any other redis
error both fall through to the miss path. -/
def translateText (w : World) (req : TranslationRequest) :
    Except TranslateError TranslationResponse × List Event :=
  let cacheKey := deriveCacheKey req.sourceLang req.targetLang req.text
  if w.redisNonNil then
    match w.cacheGet cacheKey with
    | .found v =>
        match unmarshalResponse v with
        | none => (.error .unmarshalError, [Event.cacheGet cacheKey])
        | some response =>
            (.ok { response with cacheHit := true }, [Event.cacheGet cacheKey])
    | .nilErr => translateMiss w req cacheKey [Event.cacheGet cacheKey]
    | .otherErr => translateMiss w req cacheKey [Event.cacheGet cacheKey]
  else
    translateMiss w req cacheKey []

/-- authenticateRequest: token == config.AuthToken. -/
def authenticateRequest (configToken token : String) : Bool :=
  token == configToken

/-- Externally observable outcome of handleTranslation once the JSON body
has decoded. -/
inductive HandlerOutcome where
  | unauthorized
  | missingText
  | missingTargetLang
  | translationFailed (e : TranslateError)
  | success (r : TranslationResponse)
deriving DecidableEq

/-- The MissingField class of handler outcomes (both 400 field errors). -/
def HandlerOutcome.isMissingField : HandlerOutcome → Bool
  | .missingText => true
  | .missingTargetLang => true
  | _ => false

/-- handleTranslation after JSON decoding: auth guard, then Text and
TargetLang presence checks, then translateText. -/
def handleTranslation (configToken : String) (w : World)
    (req : TranslationRequest) : HandlerOutcome :=
  if authenticateRequest configToken req.authToken = false then .unauthorized
  else if req.text = "" then .missingText
  else if req.targetLang = "" then .missingTargetLang
  else
    match (translateText w req).1 with
    | .error e => .translationFailed e
    | .ok r => .success r

/-- A world with an empty reachable cache and an always-successful provider
and parser. -/
def missWorld : World :=
  { redisNonNil := true
    cacheGet := fun _ => .nilErr
    parse := fun _ => true
    providerTranslate := fun _ _ _ => .ok [{ text := "hola mundo", source := "en" }]
    setFails := false }

/-- Like missWorld but the tag validator rejects the tag xx-??. -/
def badTagWorld : World :=
  { missWorld with parse := fun s => !(s == "xx-??") }

/-- Like missWorld but every cache lookup returns bytes that fail to
deserialize. -/
def garbageWorld : World :=
  { missWorld with cacheGet := fun _ => .found (.garbage "not json") }

/-- The entry persisted in hitWorld: cacheHit serialized as false. -/
def storedResponse : TranslationResponse :=
  { translatedText := "hola mundo", sourceLang := "en", targetLang := "es"
    cacheHit := false }

/-- Like missWorld but every cache lookup finds a well-formed entry. -/
def hitWorld : World :=
  { missWorld with cacheGet := fun _ => .found (.wellFormed storedResponse) }

/-- A sample valid request. -/
def sampleReq : TranslationRequest :=
  { text := "Hello, world!", sourceLang := "en", targetLang := "es"
    authToken := "" }

/-- Splitting a colon-delimited concatenation whose head fields are
colon-free: the fields and the remainders coincide. -/
theorem colon_split {a₁ : List Char} :
    ∀ {a₂ r₁ r₂ : List Char}, ':' ∉ a₁ → ':' ∉ a₂ →
      a₁ ++ ':' :: r₁ = a₂ ++ ':' :: r₂ → a₁ = a₂ ∧ r₁ = r₂ := by
  induction a₁ with
  | nil =>
    intro a₂ r₁ r₂ _ h₂ h
    cases a₂ with
    | nil => simp_all
    | cons d a₂' =>
      simp only [List.nil_append, List.cons_append, List.cons.injEq] at h
      exact absurd (by rw [h.1]; exact List.mem_cons_self d a₂') h₂
  | cons c a₁' ih =>
    intro a₂ r₁ r₂ h₁ h₂ h
    cases a₂ with
    | nil =>
      simp only [List.nil_append, List.cons_append, List.cons.injEq] at h
      exact absurd (by rw [← h.1]; exact List.mem_cons_self c a₁') h₁
    | cons d a₂' =>
      simp only [List.cons_append, List.cons.injEq] at h
      obtain ⟨ha, hr⟩ := ih (fun hm => h₁ (List.mem_cons_of_mem _ hm))
        (fun hm => h₂ (List.mem_cons_of_mem _ hm)) h.2
      exact ⟨by rw [h.1, ha], hr⟩

/-- Character data of a derived key, with the two delimiter colons
exposed. -/
theorem deriveCacheKey_data (s t x : String) :
    (deriveCacheKey s t x).data
      = "translate:".data ++ (s.data ++ ':' :: (t.data ++ ':' :: x.data)) := by
  have hc : (":" : String).data = [':'] := rfl
  simp [deriveCacheKey, String.data_append, hc]

/-- C5 (amended): key derivation is injective on triples whose language
fields are colon-free: equal keys force equal triples. -/
theorem C5_derive_injective_on_colon_free_langs
    (s₁ t₁ x₁ s₂ t₂ x₂ : String)
    (hs₁ : ':' ∉ s₁.data) (ht₁ : ':' ∉ t₁.data)
    (hs₂ : ':' ∉ s₂.data) (ht₂ : ':' ∉ t₂.data)
    (h : deriveCacheKey s₁ t₁ x₁ = deriveCacheKey s₂ t₂ x₂) :
    s₁ = s₂ ∧ t₁ = t₂ ∧ x₁ = x₂ := by
  have hd := congrArg String.data h
  rw [deriveCacheKey_data, deriveCacheKey_data] at hd
  have h1 := List.append_cancel_left hd
  obtain ⟨hs, hrest⟩ := colon_split hs₁ hs₂ h1
  obtain ⟨ht, hx⟩ := colon_split ht₁ ht₂ hrest
  exact ⟨String.ext hs, String.ext ht, String.ext hx⟩

/-- C5 (counterexample): two distinct triples whose fields embed the colon
delimiter derive the same cache key, so derivation is not injective. -/
theorem C5_counterexample :
    deriveCacheKey "a:b" "c" "t" = deriveCacheKey "a" "b:c" "t" ∧
    ("a:b", "c", "t") ≠ (("a" : String), ("b:c" : String), ("t" : String)) :=
  ⟨rfl, by decide⟩

/-- C5 (witness): the injectivity theorem applied at colon-free inputs. -/
theorem C5_witness :
    ("en" : String) = "en" ∧ ("es" : String) = "es" ∧ ("hi" : String) = "hi" :=
  C5_derive_injective_on_colon_free_langs "en" "es" "hi" "en" "es" "hi"
    (by decide) (by decide) (by decide) (by decide) rfl

/-- C6: key derivation is a pure function (equal inputs give equal keys), an
empty auto-detect source never collides with a non-empty source for the same
target and text, and in particular derive "en" "es" "hi" differs from
derive "" "es" "hi". -/
theorem C6_derive_pure_and_empty_source_distinct :
    (∀ a b c : String, deriveCacheKey a b c = deriveCacheKey a b c) ∧
    (∀ s t x : String, s ≠ "" → deriveCacheKey "" t x ≠ deriveCacheKey s t x) ∧
    deriveCacheKey "en" "es" "hi" ≠ deriveCacheKey "" "es" "hi" := by
  refine ⟨fun a b c => rfl, ?_, by decide⟩
  intro s t x hs h
  have hl := congrArg String.length h
  simp only [deriveCacheKey, String.length_append] at hl
  have h0 : ("" : String).length = 0 := rfl
  have hsl : s.length = 0 := by omega
  have hd : s.data = [] := List.length_eq_zero.mp hsl
  exact hs (String.ext (by rw [hd]))

/-- C6 (witness): the empty-source key differs from the "en"-source key for
target "es" and text "hi". -/
theorem C6_witness :
    deriveCacheKey "" "es" "hi" ≠ deriveCacheKey "en" "es" "hi" :=
  C6_derive_pure_and_empty_source_distinct.2.1 "en" "es" "hi" (by decide)

/-- C2 (counterexample): with no configured token, a non-empty supplied token
is rejected by authenticateRequest and the request is answered
Unauthorized — the guard does not allow every request. -/
theorem C2_counterexample :
    authenticateRequest "" "sometoken" = false ∧
    handleTranslation "" missWorld
      { text := "Hello", sourceLang := "en", targetLang := "es",
        authToken := "sometoken" } = .unauthorized :=
  ⟨rfl, rfl⟩

/-- C2 (amended): with no configured token, authenticateRequest allows
exactly the requests whose supplied token is also empty. -/
theorem C2_empty_config_token (t : String) :
    authenticateRequest "" t = true ↔ t = "" := by
  simp [authenticateRequest]

/-- C2 (witness): the empty supplied token is allowed when no token is
configured. -/
theorem C2_witness : authenticateRequest "" "" = true :=
  (C2_empty_config_token "").mpr rfl

/-- A Found lookup whose value deserializes is returned as a hit with
cacheHit forced true; the trace is the single cache Get. -/
theorem translateText_found_wellFormed (w : World) (req : TranslationRequest)
    (stored : TranslationResponse) (hr : w.redisNonNil = true)
    (hg : w.cacheGet (deriveCacheKey req.sourceLang req.targetLang req.text)
      = .found (.wellFormed stored)) :
    translateText w req
      = (.ok { stored with cacheHit := true },
         [Event.cacheGet (deriveCacheKey req.sourceLang req.targetLang req.text)]) := by
  simp [translateText, hr, hg, unmarshalResponse]

/-- A Found lookup whose value fails to deserialize aborts the run with
unmarshalError; the trace is the single cache Get. -/
theorem translateText_found_garbage (w : World) (req : TranslationRequest)
    (s : String) (hr : w.redisNonNil = true)
    (hg : w.cacheGet (deriveCacheKey req.sourceLang req.targetLang req.text)
      = .found (.garbage s)) :
    translateText w req
      = (.error .unmarshalError,
         [Event.cacheGet (deriveCacheKey req.sourceLang req.targetLang req.text)]) := by
  simp [translateText, hr, hg, unmarshalResponse]

/-- When the lookup misses (redis.Nil) or errors otherwise, translateText is
the miss path behind the recorded Get. -/
theorem translateText_eq_miss (w : World) (req : TranslationRequest)
    (hr : w.redisNonNil = true)
    (hg : w.cacheGet (deriveCacheKey req.sourceLang req.targetLang req.text) = .nilErr ∨
          w.cacheGet (deriveCacheKey req.sourceLang req.targetLang req.text) = .otherErr) :
    translateText w req
      = translateMiss w req (deriveCacheKey req.sourceLang req.targetLang req.text)
          [Event.cacheGet (deriveCacheKey req.sourceLang req.targetLang req.text)] := by
  rcases hg with hg | hg <;> simp [translateText, hr, hg]

/-- Without a redis client there is no cache traffic: translateText is the
miss path with an empty prior trace. -/
theorem translateText_eq_miss_noRedis (w : World) (req : TranslationRequest)
    (hr : w.redisNonNil = false) :
    translateText w req
      = translateMiss w req (deriveCacheKey req.sourceLang req.targetLang req.text) [] := by
  simp [translateText, hr]

/-- Every run is the deserializable-hit shape, the unmarshal-error shape, or
a miss-path run whose prior trace is empty or the single Get. -/
theorem translateText_cases (w : World) (req : TranslationRequest) :
    (∃ stored, w.redisNonNil = true ∧
      w.cacheGet (deriveCacheKey req.sourceLang req.targetLang req.text)
        = .found (.wellFormed stored) ∧
      translateText w req
        = (.ok { stored with cacheHit := true },
           [Event.cacheGet (deriveCacheKey req.sourceLang req.targetLang req.text)])) ∨
    (∃ s, w.redisNonNil = true ∧
      w.cacheGet (deriveCacheKey req.sourceLang req.targetLang req.text)
        = .found (.garbage s) ∧
      translateText w req
        = (.error .unmarshalError,
           [Event.cacheGet (deriveCacheKey req.sourceLang req.targetLang req.text)])) ∨
    (∃ ev0, (ev0 = ([] : List Event) ∨
        ev0 = [Event.cacheGet (deriveCacheKey req.sourceLang req.targetLang req.text)]) ∧
      translateText w req
        = translateMiss w req (deriveCacheKey req.sourceLang req.targetLang req.text) ev0) := by
  cases hr : w.redisNonNil with
  | false =>
    exact Or.inr (Or.inr ⟨[], Or.inl rfl, translateText_eq_miss_noRedis w req hr⟩)
  | true =>
    cases hg : w.cacheGet (deriveCacheKey req.sourceLang req.targetLang req.text) with
    | found v =>
      cases v with
      | wellFormed stored =>
        exact Or.inl ⟨stored, rfl, rfl, translateText_found_wellFormed w req stored hr hg⟩
      | garbage s =>
        exact Or.inr (Or.inl ⟨s, rfl, rfl, translateText_found_garbage w req s hr hg⟩)
    | nilErr =>
      exact Or.inr (Or.inr ⟨_, Or.inr rfl, translateText_eq_miss w req hr (Or.inl hg)⟩)
    | otherErr =>
      exact Or.inr (Or.inr ⟨_, Or.inr rfl, translateText_eq_miss w req hr (Or.inr hg)⟩)

/-- Characterization of a successful miss-path run: cacheHit is false, the
raw target is echoed, an explicit source is echoed, and a provider call is
in the trace. -/
theorem translateMiss_ok_facts (w : World) (req : TranslationRequest)
    (k : String) (ev0 : List Event) (resp : TranslationResponse)
    (evs : List Event)
    (h : translateMiss w req k ev0 = (.ok resp, evs)) :
    resp.cacheHit = false ∧ resp.targetLang = req.targetLang ∧
    (req.sourceLang ≠ "" → resp.sourceLang = req.sourceLang) ∧
    Event.providerCall req.text (providerSource req) req.targetLang ∈ evs := by
  unfold translateMiss at h
  split at h
  · simp at h
  · split at h
    · simp at h
    · split at h
      · simp at h
      · simp at h
      · split at h
        · simp only [Prod.mk.injEq, Except.ok.injEq] at h
          obtain ⟨hresp, hevs⟩ := h
          subst hresp; subst hevs
          refine ⟨rfl, rfl, fun hsrc => ?_, by simp⟩
          simp [missResponse, hsrc]
        · simp only [Prod.mk.injEq, Except.ok.injEq] at h
          obtain ⟨hresp, hevs⟩ := h
          subst hresp; subst hevs
          refine ⟨rfl, rfl, fun hsrc => ?_, by simp⟩
          simp [missResponse, hsrc]

/-- On the miss path an unparsable tag yields an InvalidLanguageTag-class
error and leaves the trace at ev0: no provider call. -/
theorem translateMiss_invalid (w : World) (req : TranslationRequest)
    (k : String) (ev0 : List Event)
    (hbad : w.parse req.targetLang = false ∨
            (req.sourceLang ≠ "" ∧ w.parse req.sourceLang = false)) :
    ∃ e, translateMiss w req k ev0 = (.error e, ev0) ∧
      e.isInvalidLanguageTag = true := by
  unfold translateMiss
  by_cases h1 : req.sourceLang ≠ "" ∧ w.parse req.sourceLang = false
  · exact ⟨.invalidSourceLanguage, by rw [if_pos h1], rfl⟩
  · have h2 : w.parse req.targetLang = false := by tauto
    exact ⟨.invalidTargetLanguage, by rw [if_neg h1, if_pos h2], rfl⟩

/-- On the miss path a Set event pins the run down: it is the redis branch of
a successful provider call, the result is ok with the very value written,
cacheHit is false, and the provider call is in the trace. -/
theorem translateMiss_set_mem (w : World) (req : TranslationRequest)
    (kk : String) (ev0 : List Event)
    (res : Except TranslateError TranslationResponse) (evs : List Event)
    (k : String) (v : TranslationResponse)
    (h : translateMiss w req kk ev0 = (res, evs))
    (h0 : ∀ k' v', Event.cacheSet k' v' ∉ ev0)
    (hm : Event.cacheSet k v ∈ evs) :
    res = .ok v ∧ v.cacheHit = false ∧ k = kk ∧
    Event.providerCall req.text (providerSource req) req.targetLang ∈ evs := by
  unfold translateMiss at h
  split at h
  · injection h with h1 h2; subst h1; subst h2
    exact absurd hm (h0 k v)
  · split at h
    · injection h with h1 h2; subst h1; subst h2
      exact absurd hm (h0 k v)
    · split at h
      · injection h with h1 h2; subst h1; subst h2
        rcases List.mem_append.mp hm with hin | hin
        · exact absurd hin (h0 k v)
        · simp at hin
      · injection h with h1 h2; subst h1; subst h2
        rcases List.mem_append.mp hm with hin | hin
        · exact absurd hin (h0 k v)
        · simp at hin
      · split at h
        · injection h with h1 h2; subst h1; subst h2
          rcases List.mem_append.mp hm with hin | hin
          · exact absurd hin (h0 k v)
          · simp only [List.mem_cons, List.not_mem_nil, or_false] at hin
            rcases hin with hin | hin
            · simp at hin
            · injection hin with hk hv
              subst hk; subst hv
              exact ⟨rfl, rfl, rfl, by simp⟩
        · injection h with h1 h2; subst h1; subst h2
          rcases List.mem_append.mp hm with hin | hin
          · exact absurd hin (h0 k v)
          · simp at hin

/-- C1 (counterexample): a request whose target tag is unparsable still has
its cache Get issued (and only then fails InvalidLanguageTag), contradicting
the claim that no cache Get is ever performed for such a request. -/
theorem C1_counterexample :
    (translateText badTagWorld
        { text := "Hello", sourceLang := "", targetLang := "xx-??",
          authToken := "" }).1 = .error .invalidTargetLanguage ∧
    Event.cacheGet (deriveCacheKey "" "xx-??" "Hello")
      ∈ (translateText badTagWorld
        { text := "Hello", sourceLang := "", targetLang := "xx-??",
          authToken := "" }).2 :=
  ⟨rfl, by decide⟩

/-- C1 (amended): when the lookup does not return Found, an unparsable target
tag (or unparsable non-empty source tag) fails with an InvalidLanguageTag
error and no provider Translate is performed — but the cache Get is issued
first whenever the redis client is set. -/
theorem C1_invalid_tag_no_provider (w : World) (req : TranslationRequest)
    (hnf : w.cacheGet (deriveCacheKey req.sourceLang req.targetLang req.text) = .nilErr ∨
           w.cacheGet (deriveCacheKey req.sourceLang req.targetLang req.text) = .otherErr)
    (hbad : w.parse req.targetLang = false ∨
            (req.sourceLang ≠ "" ∧ w.parse req.sourceLang = false)) :
    (∃ e, (translateText w req).1 = .error e ∧ e.isInvalidLanguageTag = true) ∧
    (∀ e ∈ (translateText w req).2, e.isProviderCall = false) ∧
    (w.redisNonNil = true →
      Event.cacheGet (deriveCacheKey req.sourceLang req.targetLang req.text)
        ∈ (translateText w req).2) := by
  cases hr : w.redisNonNil with
  | true =>
    rw [translateText_eq_miss w req hr hnf]
    obtain ⟨e, he, hcl⟩ := translateMiss_invalid w req
      (deriveCacheKey req.sourceLang req.targetLang req.text)
      [Event.cacheGet (deriveCacheKey req.sourceLang req.targetLang req.text)] hbad
    rw [he]
    exact ⟨⟨e, rfl, hcl⟩, by simp [Event.isProviderCall], fun _ => by simp⟩
  | false =>
    rw [translateText_eq_miss_noRedis w req hr]
    obtain ⟨e, he, hcl⟩ := translateMiss_invalid w req
      (deriveCacheKey req.sourceLang req.targetLang req.text) [] hbad
    rw [he]
    exact ⟨⟨e, rfl, hcl⟩, by simp, fun hc => Bool.noConfusion hc⟩

/-- C1 (witness): the amended theorem at a concrete unparsable-target
request: the Get is in the trace. -/
theorem C1_witness :
    Event.cacheGet (deriveCacheKey "" "xx-??" "Hola")
      ∈ (translateText badTagWorld
        { text := "Hola", sourceLang := "", targetLang := "xx-??",
          authToken := "" }).2 :=
  (C1_invalid_tag_no_provider badTagWorld
    { text := "Hola", sourceLang := "", targetLang := "xx-??", authToken := "" }
    (Or.inl rfl) (Or.inl rfl)).2.2 rfl

/-- C4: in any run that returns ok, cacheHit is true iff no provider call is
in the trace; and a Found lookup with a deserializable value is returned
with cacheHit forced to true and no provider call. -/
theorem C4_cacheHit_iff_served_from_cache :
    (∀ (w : World) (req : TranslationRequest) (resp : TranslationResponse),
      (translateText w req).1 = .ok resp →
      (resp.cacheHit = true ↔
        ∀ e ∈ (translateText w req).2, e.isProviderCall = false)) ∧
    (∀ (w : World) (req : TranslationRequest) (stored : TranslationResponse),
      w.redisNonNil = true →
      w.cacheGet (deriveCacheKey req.sourceLang req.targetLang req.text)
        = .found (.wellFormed stored) →
      (translateText w req).1 = .ok { stored with cacheHit := true } ∧
      ∀ e ∈ (translateText w req).2, e.isProviderCall = false) := by
  constructor
  · intro w req resp hok
    rcases translateText_cases w req with ⟨stored, hr, hg, heq⟩ | ⟨s, hr, hg, heq⟩ |
      ⟨ev0, hev0, heq⟩
    · rw [heq] at hok ⊢
      have hok' : Except.ok { stored with cacheHit := true } = Except.ok resp := hok
      injection hok' with hok2
      constructor
      · intro _
        simp [Event.isProviderCall]
      · intro _
        rw [← hok2]
    · rw [heq] at hok
      simp at hok
    · rcases hrun : translateMiss w req
        (deriveCacheKey req.sourceLang req.targetLang req.text) ev0 with ⟨res, evs⟩
      rw [heq, hrun] at hok ⊢
      have hok' : res = Except.ok resp := hok
      subst hok'
      have hfacts := translateMiss_ok_facts w req
        (deriveCacheKey req.sourceLang req.targetLang req.text) ev0 resp evs hrun
      constructor
      · intro htrue
        rw [hfacts.1] at htrue
        exact Bool.noConfusion htrue
      · intro hall
        have hfalse := hall (Event.providerCall req.text (providerSource req)
          req.targetLang) hfacts.2.2.2
        simp [Event.isProviderCall] at hfalse
  · intro w req stored hr hg
    rw [translateText_found_wellFormed w req stored hr hg]
    exact ⟨rfl, by simp [Event.isProviderCall]⟩

/-- C4 (witness): the hit clause evaluated in a world whose stored entry has
cacheHit serialized false: it is returned true, with no provider call. -/
theorem C4_witness :
    (translateText hitWorld sampleReq).1
      = .ok { storedResponse with cacheHit := true } ∧
    ∀ e ∈ (translateText hitWorld sampleReq).2, e.isProviderCall = false :=
  C4_cacheHit_iff_served_from_cache.2 hitWorld sampleReq storedResponse rfl rfl

/-- C3 (counterexample): a stored value that fails to deserialize makes an
otherwise-valid request fail with an unmarshal error, without a provider
call — this cache failure is surfaced to the caller. -/
theorem C3_counterexample :
    (translateText garbageWorld sampleReq).1 = .error .unmarshalError ∧
    ∀ e ∈ (translateText garbageWorld sampleReq).2, e.isProviderCall = false :=
  ⟨rfl, by decide⟩

/-- C3 (amended): an Unavailable lookup is handled exactly like a miss, and a
failed write-back never changes the run; but a Found value that fails to
deserialize aborts the request with an unmarshal error. -/
theorem C3_cache_failures (w : World) (req : TranslationRequest) :
    translateText { w with cacheGet := fun _ => CacheGetResult.otherErr } req
      = translateText { w with cacheGet := fun _ => CacheGetResult.nilErr } req ∧
    (∀ b₁ b₂ : Bool,
      translateText { w with setFails := b₁ } req
        = translateText { w with setFails := b₂ } req) ∧
    (∀ s : String, w.redisNonNil = true →
      w.cacheGet (deriveCacheKey req.sourceLang req.targetLang req.text)
        = .found (.garbage s) →
      (translateText w req).1 = .error .unmarshalError) := by
  refine ⟨rfl, fun b₁ b₂ => rfl, fun s hr hg => ?_⟩
  rw [translateText_found_garbage w req s hr hg]

/-- C3 (witness): the deserialization clause evaluated in the garbage-cache
world. -/
theorem C3_witness :
    (translateText garbageWorld sampleReq).1 = .error .unmarshalError :=
  (C3_cache_failures garbageWorld sampleReq).2.2 "not json" rfl rfl

/-- C7 (counterexample): with a configured token and a mismatching supplied
token, a request with empty text fails Unauthorized, not MissingField. -/
theorem C7_counterexample :
    handleTranslation "secret" missWorld
        { text := "", sourceLang := "", targetLang := "es", authToken := "" }
      = .unauthorized ∧
    HandlerOutcome.unauthorized.isMissingField = false :=
  ⟨rfl, rfl⟩

/-- C7 (amended): for authenticated requests, empty text fails MissingField
whatever the remaining fields are, and empty targetLang likewise. -/
theorem C7_missing_fields (configToken : String) (w : World)
    (req : TranslationRequest)
    (hauth : authenticateRequest configToken req.authToken = true) :
    (req.text = "" → handleTranslation configToken w req = .missingText) ∧
    (req.targetLang = "" →
      (handleTranslation configToken w req).isMissingField = true) := by
  constructor
  · intro ht
    simp [handleTranslation, hauth, ht]
  · intro ht
    by_cases htx : req.text = ""
    · simp [handleTranslation, hauth, htx, HandlerOutcome.isMissingField]
    · simp [handleTranslation, hauth, htx, ht, HandlerOutcome.isMissingField]

/-- C7 (witness): empty text on an authenticated request gives the
missing-text MissingField outcome. -/
theorem C7_witness :
    handleTranslation "" missWorld
        { text := "", sourceLang := "", targetLang := "", authToken := "" }
      = .missingText :=
  (C7_missing_fields "" missWorld
    { text := "", sourceLang := "", targetLang := "", authToken := "" } rfl).1 rfl

/-- C8: a run with a non-empty caller sourceLang that returns ok after a
provider call echoes the caller-supplied sourceLang exactly. -/
theorem C8_explicit_source_echoed (w : World) (req : TranslationRequest)
    (resp : TranslationResponse) (hsrc : req.sourceLang ≠ "")
    (hok : (translateText w req).1 = .ok resp)
    (hprov : ∃ e ∈ (translateText w req).2, e.isProviderCall = true) :
    resp.sourceLang = req.sourceLang := by
  rcases translateText_cases w req with ⟨stored, hr, hg, heq⟩ | ⟨s, hr, hg, heq⟩ |
    ⟨ev0, hev0, heq⟩
  · rw [heq] at hprov
    obtain ⟨e, hmem, hcall⟩ := hprov
    simp at hmem
    subst hmem
    simp [Event.isProviderCall] at hcall
  · rw [heq] at hok
    simp at hok
  · rcases hrun : translateMiss w req
      (deriveCacheKey req.sourceLang req.targetLang req.text) ev0 with ⟨res, evs⟩
    rw [heq, hrun] at hok
    have hok' : res = Except.ok resp := hok
    subst hok'
    exact (translateMiss_ok_facts w req
      (deriveCacheKey req.sourceLang req.targetLang req.text) ev0 resp evs
      hrun).2.2.1 hsrc

/-- C8 (witness): the provider-path response in missWorld echoes the
caller-supplied source "en". -/
theorem C8_witness :
    ({ translatedText := "hola mundo", sourceLang := "en", targetLang := "es",
       cacheHit := false } : TranslationResponse).sourceLang
      = sampleReq.sourceLang :=
  C8_explicit_source_echoed missWorld sampleReq
    { translatedText := "hola mundo", sourceLang := "en", targetLang := "es",
      cacheHit := false }
    (by decide) rfl (by decide)

/-- C9: a cache hit performs no Set (the stored entry and its TTL are left
untouched), and a Set in a trace only arises on the miss path after a
successful provider call, writing the very response returned. -/
theorem C9_set_only_on_miss (w : World) (req : TranslationRequest) :
    (∀ stored : TranslationResponse,
      w.redisNonNil = true →
      w.cacheGet (deriveCacheKey req.sourceLang req.targetLang req.text)
        = .found (.wellFormed stored) →
      ∀ k v, Event.cacheSet k v ∉ (translateText w req).2) ∧
    (∀ k v, Event.cacheSet k v ∈ (translateText w req).2 →
      (translateText w req).1 = .ok v ∧ v.cacheHit = false ∧
      Event.providerCall req.text (providerSource req) req.targetLang
        ∈ (translateText w req).2) := by
  constructor
  · intro stored hr hg k v hm
    rw [translateText_found_wellFormed w req stored hr hg] at hm
    simp at hm
  · intro k v hm
    rcases translateText_cases w req with ⟨stored, hr, hg, heq⟩ | ⟨s, hr, hg, heq⟩ |
      ⟨ev0, hev0, heq⟩
    · rw [heq] at hm
      simp at hm
    · rw [heq] at hm
      simp at hm
    · rcases hrun : translateMiss w req
        (deriveCacheKey req.sourceLang req.targetLang req.text) ev0 with ⟨res, evs⟩
      rw [heq, hrun] at hm ⊢
      have h0 : ∀ k' v', Event.cacheSet k' v' ∉ ev0 := by
        rcases hev0 with h | h <;> subst h <;> simp
      have hm' : Event.cacheSet k v ∈ evs := hm
      obtain ⟨h1, h2, h3, h4⟩ := translateMiss_set_mem w req
        (deriveCacheKey req.sourceLang req.targetLang req.text) ev0 res evs k v
        hrun h0 hm'
      exact ⟨h1, h2, h4⟩

/-- C9 (witness): in a concrete hit world no Set is performed. -/
theorem C9_witness :
    Event.cacheSet (deriveCacheKey "en" "es" "Hello, world!") storedResponse
      ∉ (translateText hitWorld sampleReq).2 :=
  (C9_set_only_on_miss hitWorld sampleReq).1 storedResponse rfl rfl
    (deriveCacheKey "en" "es" "Hello, world!") storedResponse

/-- C10: keys and responses use the raw caller strings: distinct source (or
target) spellings — e.g. "en" vs "EN" — give distinct keys and hence
separate cache entries, and a provider-path response echoes the raw
targetLang and, when supplied, the raw sourceLang. -/
theorem C10_raw_strings (w : World) (req : TranslationRequest) :
    (∀ s₁ s₂ t x : String, s₁ ≠ s₂ →
      deriveCacheKey s₁ t x ≠ deriveCacheKey s₂ t x) ∧
    (∀ s t₁ t₂ x : String, t₁ ≠ t₂ →
      deriveCacheKey s t₁ x ≠ deriveCacheKey s t₂ x) ∧
    deriveCacheKey "en" "es" "hi" ≠ deriveCacheKey "EN" "es" "hi" ∧
    (∀ resp : TranslationResponse,
      (translateText w req).1 = .ok resp → resp.cacheHit = false →
      resp.targetLang = req.targetLang ∧
      (req.sourceLang ≠ "" → resp.sourceLang = req.sourceLang)) := by
  refine ⟨?_, ?_, by decide, ?_⟩
  · intro s₁ s₂ t x hne h
    have hd := congrArg String.data h
    rw [deriveCacheKey_data, deriveCacheKey_data] at hd
    have h1 := List.append_cancel_left hd
    have h2 := List.append_cancel_right h1
    exact hne (String.ext h2)
  · intro s t₁ t₂ x hne h
    have hd := congrArg String.data h
    rw [deriveCacheKey_data, deriveCacheKey_data] at hd
    have h1 := List.append_cancel_left hd
    have h2 := List.append_cancel_left h1
    simp only [List.cons.injEq, true_and] at h2
    have h3 := List.append_cancel_right h2
    exact hne (String.ext h3)
  · intro resp hok hfalse
    rcases translateText_cases w req with ⟨stored, hr, hg, heq⟩ | ⟨s, hr, hg, heq⟩ |
      ⟨ev0, hev0, heq⟩
    · rw [heq] at hok
      have hok' : Except.ok { stored with cacheHit := true } = Except.ok resp := hok
      injection hok' with hok2
      rw [← hok2] at hfalse
      exact Bool.noConfusion hfalse
    · rw [heq] at hok
      simp at hok
    · rcases hrun : translateMiss w req
        (deriveCacheKey req.sourceLang req.targetLang req.text) ev0 with ⟨res, evs⟩
      rw [heq, hrun] at hok
      have hok' : res = Except.ok resp := hok
      subst hok'
      have hfacts := translateMiss_ok_facts w req
        (deriveCacheKey req.sourceLang req.targetLang req.text) ev0 resp evs hrun
      exact ⟨hfacts.2.1, hfacts.2.2.1⟩

/-- C10 (witness): the key-distinctness clause at the spellings "en" and
"EN". -/
theorem C10_witness :
    deriveCacheKey "en" "es" "hi" ≠ deriveCacheKey "EN" "es" "hi" :=
  (C10_raw_strings missWorld sampleReq).1 "en" "EN" "es" "hi" (by decide)
